import Mathlib

/-
Verification of the infact configuration-language interpreter
(src/src/infact/interpreter.h).

The repository ships only the interpreter header.  The inline code present
there (the variadic `GetMany`, the `Get` forwarder, `EvalString`,
`curr_filename`) is embedded directly from that source.  The bodies of
`EnvironmentImpl::Get`, the statement parser, the tokenizer and the import
machinery (`Import`, `EvalFile`, `CanReadFile`, `IsAbsolute`, `HasCycle`)
exist only as declarations, so those parts are modelled from the
specification, as marked on each definition.
-/

set_option maxRecDepth 4096

/-- The primitive kind of a runtime value: one of the four primitive types
of the language, or a Factory-constructible object type identified by its
type name. -/
inductive Prim where
  | pBool
  | pInt
  | pDouble
  | pString
  | pObject (typeName : String)
deriving DecidableEq, Repr

/-- A type discriminant for a binding or a retrieval slot: a primitive kind
together with the independent is-sequence flag of a type specifier. -/
structure Ty where
  prim : Prim
  isSeq : Bool
deriving DecidableEq, Repr

/-- Modelled from the spec: the runtime Value tagged union
`{Bool, Int, Double, String, Object, Sequence}` (the C++ implementation
realises it via template dispatch in environment-impl.h, which is not in
src/).  A double literal is carried as its literal text, since no numeric
computation on doubles occurs in the modelled fragment. -/
inductive Value where
  | vBool (b : Bool)
  | vInt (n : Int)
  | vDouble (text : String)
  | vString (s : String)
  | vObject (typeName : String)
  | vSeq (elemKind : Prim) (elems : List Value)

/-- The type discriminant of a runtime value. -/
def kindOf : Value → Ty
  | .vBool _ => ⟨.pBool, false⟩
  | .vInt _ => ⟨.pInt, false⟩
  | .vDouble _ => ⟨.pDouble, false⟩
  | .vString _ => ⟨.pString, false⟩
  | .vObject t => ⟨.pObject t, false⟩
  | .vSeq k _ => ⟨k, true⟩

/-- A literal token of the language: bool, int, double or string. -/
inductive Literal where
  | lBool (b : Bool)
  | lInt (n : Int)
  | lDouble (text : String)
  | lString (s : String)
deriving DecidableEq, Repr

/-- The primitive kind denoted by a literal. -/
def kindOfLit : Literal → Prim
  | .lBool _ => .pBool
  | .lInt _ => .pInt
  | .lDouble _ => .pDouble
  | .lString _ => .pString

/-- The scalar value denoted by a literal. -/
def valueOfLit : Literal → Value
  | .lBool b => .vBool b
  | .lInt n => .vInt n
  | .lDouble t => .vDouble t
  | .lString s => .vString s

/-- Modelled from the spec: the Environment is a symbol table of bindings,
name to Value, names unique, lookup by name only (environment-impl.h is not
in src/).  Represented as an association list without duplicate names. -/
def Env : Type := List (String × Value)

/-- Modelled from the spec: name lookup in the Environment. -/
def envLookup : Env → String → Option Value
  | [], _ => none
  | (y, w) :: rest, x => if y = x then some w else envLookup rest x

/-- Modelled from the spec: replace the binding of a name if present,
otherwise append a fresh binding (later assignment overwrites earlier). -/
def envSet : Env → String → Value → Env
  | [], x, v => [(x, v)]
  | (y, w) :: rest, x, v =>
    if y = x then (y, v) :: rest else (y, w) :: envSet rest x v

/-- The error taxonomy of the interpreter (spec section 7). -/
inductive InterpError where
  | lexicalError (msg : String)
  | syntaxError (msg : String)
  | typeError (msg : String) (pos : Nat)
  | unresolvedReference (name : String)
  | importNotFound (attempt1 : String) (attempt2 : String)
  | importCycle (chain : List String)
  | constructionError (msg : String)
  | outOfFuel

/-- Modelled from the spec: committing a binding.  The type of a name is
fixed by its first-ever assignment: re-binding an existing name with a
value of a different discriminant is a TypeError, re-binding with the same
discriminant replaces the value. -/
def envDefine (env : Env) (x : String) (v : Value) : Except InterpError Env :=
  match envLookup env x with
  | none => .ok (envSet env x v)
  | some old =>
    if kindOf old = kindOf v then .ok (envSet env x v)
    else .error (.typeError ("conflicting type in reassignment of variable " ++ x) 0)

/-- The three possible outcomes of a typed retrieval from the Environment. -/
inductive GetOutcome where
  | found (v : Value)
  | notFound
  | mismatch

/-- Modelled from the spec: `EnvironmentImpl::Get` (environment-impl.h is
not in src/).  No binding is a benign not-found; a binding whose
discriminant differs from the requested slot type is a type mismatch,
distinct from not-found; otherwise the bound value is produced. -/
def envGet (env : Env) (name : String) (t : Ty) : GetOutcome :=
  match envLookup env name with
  | none => .notFound
  | some v => if kindOf v = t then .found v else .mismatch

/-- Embedded from `Interpreter::Get` (interpreter.h lines 316-319), which
forwards to the environment.  The result carries the returned boolean and
the final content of the output slot (`slot` is its prior content); a
discriminant mismatch is surfaced as a TypeError, per the spec, distinct
from the benign false of not-found. -/
def Get (env : Env) (varname : String) (t : Ty) (slot : Value) :
    Except InterpError (Bool × Value) :=
  match envGet env varname t with
  | .found v => .ok (true, v)
  | .notFound => .ok (false, slot)
  | .mismatch =>
    .error (.typeError ("retrieval type mismatch for variable " ++ varname) 0)

/-- The diagnostic message `Interpreter::GetMany` emits for a missing
variable (interpreter.h lines 298-300). -/
def noVarMsg (varname : String) : String :=
  "infact::Interpreter: no variable with name " ++ varname

/-- The observable result of a `GetMany` call: the returned boolean, the
final contents of all output slots in order, and the diagnostic message of
the failing name, if any. -/
structure GetManyResult where
  success : Bool
  slots : List Value
  errMsg : Option String

/-- Embedded from `Interpreter::GetMany` (interpreter.h lines 260-305):
the base case returns true; each step calls `Get` on the next
(name, slot) pair, and on a false result emits the diagnostic naming that
variable and returns false at once, leaving the remaining slots at their
prior contents.  A pair is `(name, slot type, prior slot content)`. -/
def GetMany (env : Env) :
    List (String × Ty × Value) → Except InterpError GetManyResult
  | [] => .ok { success := true, slots := [], errMsg := none }
  | (varname, t, slot) :: rest =>
    match Get env varname t slot with
    | .error e => .error e
    | .ok (success, slotVal) =>
      if success then
        match GetMany env rest with
        | .error e => .error e
        | .ok r =>
          .ok { success := r.success, slots := slotVal :: r.slots,
                errMsg := r.errMsg }
      else
        .ok { success := false,
              slots := slotVal :: rest.map (fun q => q.2.2),
              errMsg := some (noVarMsg varname) }

/-- Whether a single (name, type, slot) pair would succeed: the name is
bound and its value is assignable to the slot type. -/
def isFound (env : Env) (q : String × Ty × Value) : Bool :=
  match envGet env q.1 q.2.1 with
  | .found _ => true
  | _ => false

/-- The slot content a pair ends up with: the bound value when retrieval
succeeds, the prior content otherwise. -/
def gotVal (env : Env) (q : String × Ty × Value) : Value :=
  match envGet env q.1 q.2.1 with
  | .found v => v
  | _ => q.2.2

/-- The interpreter state visible to host-facing calls: the environment
and the stack of filenames (interpreter.h lines 394-402). -/
structure Interp where
  env : Env
  filenames : List String

/-- Embedded from `Interpreter::Get` as a state-passing operation on the
whole interpreter state: the method is declared `const` and forwards to
the environment; the second component is the state after the call. -/
def InterpGet (it : Interp) (varname : String) (t : Ty) (slot : Value) :
    Except InterpError (Bool × Value) × Interp :=
  match envGet it.env varname t with
  | .found v => (.ok (true, v), it)
  | .notFound => (.ok (false, slot), it)
  | .mismatch =>
    (.error (.typeError ("retrieval type mismatch for variable " ++ varname) 0), it)

/-- A value expression of the statement grammar, as produced by the parser:
a scalar literal, a brace-enclosed literal list, or a bare identifier
referring to a previously bound variable.  Construction specs are routed to
the external Factory and are outside the modelled fragment. -/
inductive Expr where
  | lit (l : Literal)
  | litList (ls : List Literal)
  | ref (x : String)

/-- A `(import | statement) ;` unit of the grammar: an import of a path
string, or an assignment with an optional type specifier. -/
inductive Stmt where
  | assign (spec : Option Ty) (x : String) (e : Expr)
  | importStmt (path : String)

/-- The index of the first element of a literal list whose kind differs
from the expected element kind, if any. -/
def firstBadIdx (k : Prim) : List Literal → Option Nat
  | [] => none
  | l :: rest =>
    if kindOfLit l = k then (firstBadIdx k rest).map Nat.succ else some 0

/-- Modelled from the spec: `ParseValue` over the modelled expression forms
(the parser implementation is not in src/).  A literal must match a present
primitive specifier exactly (no widening); a brace list parses to a
homogeneous Sequence, failing with a TypeError naming the position of the
first offending element; a bare identifier resolves against the
Environment, failing with an UnresolvedReferenceError when unbound. -/
def evalExpr (env : Env) (spec : Option Ty) : Expr → Except InterpError Value
  | .lit l =>
    match spec with
    | none => .ok (valueOfLit l)
    | some t =>
      if t = ⟨kindOfLit l, false⟩ then .ok (valueOfLit l)
      else .error (.typeError "literal does not match declared type" 0)
  | .litList ls =>
    match spec with
    | some t =>
      if t.isSeq then
        match firstBadIdx t.prim ls with
        | none => .ok (.vSeq t.prim (ls.map valueOfLit))
        | some i => .error (.typeError "heterogeneous sequence element" i)
      else .error (.typeError "list literal with scalar type specifier" 0)
    | none =>
      match ls with
      | [] => .error (.typeError "cannot infer element type of empty list" 0)
      | l0 :: _ =>
        match firstBadIdx (kindOfLit l0) ls with
        | none => .ok (.vSeq (kindOfLit l0) (ls.map valueOfLit))
        | some i => .error (.typeError "heterogeneous sequence element" i)
  | .ref x =>
    match envLookup env x with
    | none => .error (.unresolvedReference x)
    | some v =>
      match spec with
      | none => .ok v
      | some t =>
        if t = kindOf v then .ok v
        else .error (.typeError "variable type mismatch" 0)

/-- Modelled from the spec: evaluating one assignment statement parses the
value expression under the optional specifier and commits the binding into
the Environment. -/
def evalAssign (env : Env) (spec : Option Ty) (x : String) (e : Expr) :
    Except InterpError Env :=
  match evalExpr env spec e with
  | .error err => .error err
  | .ok v => envDefine env x v

/-- Modelled from the spec: the world the import subsystem runs against —
the absolute-path test, directory extraction and path joining (the
`IsAbsolute`/`CanReadFile` implementations are not in src/), the working
directory, and the pluggable stream-opening capability, modelled as a map
from file names to the parsed statement lists of readable files. -/
structure World where
  isAbs : String → Bool
  dirOf : String → String
  joinPath : String → String → String
  cwd : String
  files : String → Option (List Stmt)

/-- Whether a named file exists and can be read in a world. -/
def canRead (w : World) (f : String) : Bool :=
  (w.files f).isSome

/-- Modelled from the spec: the directory a relative import is first
resolved against — the directory of the file on top of the import stack
(the back of the filename vector), or the working directory when the
stack is empty. -/
def importBaseDir (w : World) (stack : List String) : String :=
  match stack.getLast? with
  | none => w.cwd
  | some f => w.dirOf f

/-- Modelled from the spec: the directory-relative candidate for a
relative import path — the path joined to the directory of the file on
top of the import stack. -/
def firstCandidate (w : World) (stack : List String) (path : String) : String :=
  w.joinPath (importBaseDir w stack) path

/-- Modelled from the spec: import path resolution (spec section 4.3,
continued).  An absolute path is attempted exactly as written, with no
fallback.  A relative path is first attempted as its directory-relative
candidate; if that fails, the path is attempted exactly as written; if
both attempts fail, the error names both attempted paths. -/
def resolveImport (w : World) (stack : List String) (path : String) :
    Except InterpError String :=
  if w.isAbs path then
    if canRead w path then .ok path
    else .error (.importNotFound path path)
  else
    let cand := firstCandidate w stack path
    if canRead w cand then .ok cand
    else if canRead w path then .ok path
    else .error (.importNotFound cand path)

/-- Modelled from the spec: `Interpreter::HasCycle` — a file introduces a
cycle exactly when it is already a member of the stack of files being
interpreted (interpreter.h lines 349-351). -/
def HasCycle (filename : String) (filenames : List String) : Bool :=
  filenames.contains filename

/-- Modelled from the spec: evaluation of a list of parsed units in one
shared Environment (the `Eval`/`Import`/`EvalFile` bodies are not in src/).
An assignment threads the updated Environment to the rest.  An import
resolves its path, checks the resolved canonical name against the import
stack for a cycle before opening, pushes it onto the stack while the
imported statements are evaluated in the current Environment, and
continues with the importer's own stack (the pop) and the Environment the
imported file produced.  `fuel` bounds recursion depth; canonicalization
is modelled as the identity on resolved names. -/
def EvalUnits (w : World) : Nat → List String → Env → List Stmt → Except InterpError Env
  | _, _, env, [] => .ok env
  | 0, _, _, _ :: _ => .error .outOfFuel
  | fuel + 1, stack, env, .assign spec x ex :: rest =>
    match evalAssign env spec x ex with
    | .error err => .error err
    | .ok env2 => EvalUnits w fuel stack env2 rest
  | fuel + 1, stack, env, .importStmt path :: rest =>
    match resolveImport w stack path with
    | .error err => .error err
    | .ok file =>
      if HasCycle file stack then .error (.importCycle (stack ++ [file]))
      else
        match w.files file with
        | none => .error (.importNotFound file file)
        | some stmts =>
          match EvalUnits w fuel (stack ++ [file]) env stmts with
          | .error err => .error err
          | .ok env2 => EvalUnits w fuel stack env2 rest

/-- Modelled from the spec: `Interpreter::EvalFile` on an already resolved
canonical file name: check the import stack for a cycle before opening,
fail when the file cannot be opened, otherwise evaluate its statements
with the file pushed on the stack. -/
def EvalFile (w : World) (fuel : Nat) (stack : List String) (env : Env)
    (file : String) : Except InterpError Env :=
  if HasCycle file stack then .error (.importCycle (stack ++ [file]))
  else
    match w.files file with
    | none => .error (.importNotFound file file)
    | some stmts => EvalUnits w fuel (stack ++ [file]) env stmts

/-- Claim C9: calling GetMany with zero name/slot pairs returns true: the
all-or-nothing retrieval contract holds vacuously on the empty batch
(the variadic base case, interpreter.h line 261). -/
theorem getMany_empty_true (env : Env) :
    GetMany env [] = .ok { success := true, slots := [], errMsg := none } :=
  rfl

/-- Looking up a name right after setting it yields the value just set. -/
theorem envLookup_envSet_self (env : Env) (x : String) (v : Value) :
    envLookup (envSet env x v) x = some v := by
  induction env with
  | nil => simp [envSet, envLookup]
  | cons q rest ih =>
    obtain ⟨y, w⟩ := q
    by_cases h : y = x
    · simp [envSet, envLookup, h]
    · simp [envSet, envLookup, h, ih]

/-- A successful commit produces exactly the environment with the binding
replaced or appended. -/
theorem envDefine_ok (env : Env) (x : String) (v : Value) (env2 : Env)
    (h : envDefine env x v = .ok env2) : env2 = envSet env x v := by
  unfold envDefine at h
  split at h
  · cases h; rfl
  · split at h
    · cases h; rfl
    · cases h

/-- The discriminant of the value a literal denotes is the literal's
scalar kind. -/
theorem kindOf_valueOfLit (l : Literal) :
    kindOf (valueOfLit l) = ⟨kindOfLit l, false⟩ := by
  cases l <;> rfl

/-- Claim C10: Get is a read-only operation on the interpreter state: in
all three outcomes (found, not found, mismatch) the state, and hence every
binding of the environment, is unchanged, and the returned result agrees
with the environment-level Get. -/
theorem interpGet_readonly (it : Interp) (varname : String) (t : Ty) (slot : Value) :
    (InterpGet it varname t slot).2 = it
    ∧ (InterpGet it varname t slot).1 = Get it.env varname t slot
    ∧ ∀ y, envLookup (InterpGet it varname t slot).2.env y = envLookup it.env y := by
  cases hg : envGet it.env varname t <;>
    simp [InterpGet, Get, hg]

/-- Claim C2: a name with no binding makes Get return false with no error
raised, and GetMany on that name likewise returns a false result (with its
diagnostic message) rather than an error; only a discriminant mismatch on
an existing binding is surfaced as a distinct error kind (a TypeError). -/
theorem get_notFound_benign (env : Env) (n : String) (t : Ty) (s : Value) :
    (envLookup env n = none →
       Get env n t s = .ok (false, s)
       ∧ GetMany env [(n, t, s)] =
           .ok { success := false, slots := [s], errMsg := some (noVarMsg n) })
    ∧ (∀ v, envLookup env n = some v → kindOf v ≠ t →
         Get env n t s =
           .error (.typeError ("retrieval type mismatch for variable " ++ n) 0)) := by
  constructor
  · intro h
    constructor
    · simp [Get, envGet, h]
    · simp [GetMany, Get, envGet, h]
  · intro v hv hne
    simp [Get, envGet, hv, if_neg hne]

/-- Witness for C2 at a concrete environment: a missing name is a benign
false for both Get and GetMany, and a wrongly typed slot for a bound name
is a TypeError. -/
theorem get_notFound_benign_witness :
    Get [("x", Value.vInt 6)] "y" ⟨.pInt, false⟩ (Value.vInt 0) =
      .ok (false, Value.vInt 0)
    ∧ GetMany [("x", Value.vInt 6)] [("y", ⟨.pInt, false⟩, Value.vInt 0)] =
        .ok { success := false, slots := [Value.vInt 0], errMsg := some (noVarMsg "y") }
    ∧ Get [("x", Value.vInt 6)] "x" ⟨.pBool, false⟩ (Value.vInt 0) =
        .error (.typeError ("retrieval type mismatch for variable " ++ "x") 0) :=
  ⟨((get_notFound_benign [("x", Value.vInt 6)] "y" ⟨.pInt, false⟩ (Value.vInt 0)).1 rfl).1,
   ((get_notFound_benign [("x", Value.vInt 6)] "y" ⟨.pInt, false⟩ (Value.vInt 0)).1 rfl).2,
   (get_notFound_benign [("x", Value.vInt 6)] "x" ⟨.pBool, false⟩ (Value.vInt 0)).2
     (Value.vInt 6) rfl (by decide)⟩

/-- When every pair of the batch names a bound variable whose value is
assignable to its slot, GetMany succeeds and each slot holds the bound
value. -/
theorem getMany_all_found (env : Env) :
    ∀ pairs : List (String × Ty × Value), pairs.all (isFound env) = true →
      GetMany env pairs =
        .ok { success := true, slots := pairs.map (gotVal env), errMsg := none } := by
  intro pairs
  induction pairs with
  | nil => intro _; rfl
  | cons q rest ih =>
    obtain ⟨n, t, s⟩ := q
    intro hall
    rw [List.all_cons, Bool.and_eq_true] at hall
    obtain ⟨hq, hrest⟩ := hall
    cases hg : envGet env n t with
    | found v =>
      simp [GetMany, Get, hg, ih hrest, gotVal]
    | notFound => simp [isFound, hg] at hq
    | mismatch => simp [isFound, hg] at hq

/-- When the pairs before position k all succeed and the pair at position
k names an unbound variable, GetMany returns false reporting that pair's
name, the earlier slots keep their assigned values and the later slots
keep their prior contents. -/
theorem getMany_first_notFound (env : Env) :
    ∀ (pre : List (String × Ty × Value)) (p : String × Ty × Value)
      (post : List (String × Ty × Value)),
      pre.all (isFound env) = true →
      envGet env p.1 p.2.1 = .notFound →
      GetMany env (pre ++ p :: post) =
        .ok { success := false,
              slots := pre.map (gotVal env) ++ p.2.2 :: post.map (fun q => q.2.2),
              errMsg := some (noVarMsg p.1) } := by
  intro pre
  induction pre with
  | nil =>
    intro p post _ hp
    obtain ⟨n, t, s⟩ := p
    simp only at hp
    simp [GetMany, Get, hp]
  | cons q rest ih =>
    intro p post hall hp
    obtain ⟨n, t, s⟩ := q
    rw [List.all_cons, Bool.and_eq_true] at hall
    obtain ⟨hq, hrest⟩ := hall
    cases hg : envGet env n t with
    | found v =>
      simp [GetMany, Get, hg, ih p post hrest hp, gotVal]
    | notFound => simp [isFound, hg] at hq
    | mismatch => simp [isFound, hg] at hq

/-- If GetMany returns with a true boolean then every pair of the batch
named a bound variable assignable to its slot. -/
theorem getMany_true_all_found (env : Env) :
    ∀ (pairs : List (String × Ty × Value)) (r : GetManyResult),
      GetMany env pairs = .ok r → r.success = true →
      pairs.all (isFound env) = true := by
  intro pairs
  induction pairs with
  | nil => intro r _ _; rfl
  | cons q rest ih =>
    obtain ⟨n, t, s⟩ := q
    intro r hok hsucc
    cases hg : envGet env n t with
    | found v =>
      rw [List.all_cons, Bool.and_eq_true]
      refine ⟨by simp [isFound, hg], ?_⟩
      simp only [GetMany, Get, hg] at hok
      cases hrest : GetMany env rest with
      | error e => rw [hrest] at hok; cases hok
      | ok r2 =>
        rw [hrest] at hok
        simp only [if_pos] at hok
        cases hok
        exact ih r2 hrest hsucc
    | notFound =>
      simp only [GetMany, Get, hg] at hok
      simp only [Bool.false_eq_true, if_false] at hok
      cases hok
      cases hsucc
    | mismatch =>
      simp only [GetMany, Get, hg] at hok
      cases hok

/-- Claim C1: GetMany is the left-to-right sequencing of Get over its
(name, slot) pairs: it returns true exactly when every pair finds a
binding assignable to its slot, it stops at the first unbound name and
reports that name, the slots after the failing pair are not mutated, and
the slots of the earlier successful pairs keep the values already
assigned. -/
theorem getMany_sequencing (env : Env) :
    (∀ pairs : List (String × Ty × Value), pairs.all (isFound env) = true →
       GetMany env pairs =
         .ok { success := true, slots := pairs.map (gotVal env), errMsg := none })
    ∧ (∀ (pre : List (String × Ty × Value)) (p : String × Ty × Value)
         (post : List (String × Ty × Value)),
         pre.all (isFound env) = true →
         envGet env p.1 p.2.1 = .notFound →
         GetMany env (pre ++ p :: post) =
           .ok { success := false,
                 slots := pre.map (gotVal env) ++ p.2.2 :: post.map (fun q => q.2.2),
                 errMsg := some (noVarMsg p.1) })
    ∧ (∀ (pairs : List (String × Ty × Value)) (r : GetManyResult),
         GetMany env pairs = .ok r → r.success = true →
         pairs.all (isFound env) = true) :=
  ⟨getMany_all_found env, getMany_first_notFound env, getMany_true_all_found env⟩

/-- Witness for C1 at a concrete environment holding an int and a string:
the all-found batch succeeds with the bound values, and a batch whose
middle pair is unbound fails reporting that name, with the first slot
assigned and the later slots untouched. -/
theorem getMany_sequencing_witness :
    GetMany [("i", Value.vInt 6), ("f", Value.vString "foo")]
        [("i", ⟨.pInt, false⟩, Value.vInt 0), ("f", ⟨.pString, false⟩, Value.vString "")] =
      .ok { success := true, slots := [Value.vInt 6, Value.vString "foo"], errMsg := none }
    ∧ GetMany [("i", Value.vInt 6), ("f", Value.vString "foo")]
        [("i", ⟨.pInt, false⟩, Value.vInt 0), ("g", ⟨.pInt, false⟩, Value.vInt 7),
         ("f", ⟨.pString, false⟩, Value.vString "")] =
      .ok { success := false, slots := [Value.vInt 6, Value.vInt 7, Value.vString ""],
            errMsg := some (noVarMsg "g") } :=
  ⟨(getMany_sequencing [("i", Value.vInt 6), ("f", Value.vString "foo")]).1
     [("i", ⟨.pInt, false⟩, Value.vInt 0), ("f", ⟨.pString, false⟩, Value.vString "")] rfl,
   (getMany_sequencing [("i", Value.vInt 6), ("f", Value.vString "foo")]).2.1
     [("i", ⟨.pInt, false⟩, Value.vInt 0)] ("g", ⟨.pInt, false⟩, Value.vInt 7)
     [("f", ⟨.pString, false⟩, Value.vString "")] rfl rfl⟩

/-- Claim C6: for a well-formed primitive assignment with a matching type
specifier that evaluation accepts, a subsequent Get of the variable
returns true and writes exactly the value denoted by the literal into the
slot. -/
theorem assign_literal_roundtrip (env : Env) (x : String) (l : Literal)
    (env2 : Env) (slot : Value)
    (h : evalAssign env (some ⟨kindOfLit l, false⟩) x (.lit l) = .ok env2) :
    Get env2 x ⟨kindOfLit l, false⟩ slot = .ok (true, valueOfLit l) := by
  simp only [evalAssign, evalExpr, if_pos] at h
  have h2 := envDefine_ok env x (valueOfLit l) env2 h
  subst h2
  simp [Get, envGet, envLookup_envSet_self, kindOf_valueOfLit]

/-- Witness for C6: after `int x = 6;` in the empty environment, Get
returns true with the value 6. -/
theorem assign_literal_roundtrip_witness :
    Get [("x", Value.vInt 6)] "x" ⟨.pInt, false⟩ (Value.vInt 0) =
      .ok (true, Value.vInt 6) :=
  assign_literal_roundtrip [] "x" (.lInt 6) [("x", Value.vInt 6)] (Value.vInt 0) rfl

/-- Claim C8: for a variable already bound, a later assignment whose
literal has a different discriminant fails with a TypeError, while a later
assignment of the same discriminant succeeds and a subsequent Get returns
the new value — the binding's type is fixed by its first assignment. -/
theorem reassignment_type_fixed (env : Env) (x : String) (vOld : Value)
    (l : Literal) (slot : Value) (hbound : envLookup env x = some vOld) :
    ((⟨kindOfLit l, false⟩ : Ty) ≠ kindOf vOld →
       evalAssign env none x (.lit l) =
         .error (.typeError ("conflicting type in reassignment of variable " ++ x) 0))
    ∧ ((⟨kindOfLit l, false⟩ : Ty) = kindOf vOld →
       evalAssign env none x (.lit l) = .ok (envSet env x (valueOfLit l))
       ∧ Get (envSet env x (valueOfLit l)) x (kindOf vOld) slot =
           .ok (true, valueOfLit l)) := by
  have hdef : evalAssign env none x (.lit l) =
      if kindOf vOld = ⟨kindOfLit l, false⟩ then .ok (envSet env x (valueOfLit l))
      else .error (.typeError ("conflicting type in reassignment of variable " ++ x) 0) := by
    show envDefine env x (valueOfLit l) = _
    simp [envDefine, hbound, kindOf_valueOfLit]
  constructor
  · intro hne
    rw [hdef, if_neg (fun hh => hne hh.symm)]
  · intro heq
    refine ⟨by rw [hdef, if_pos heq.symm], ?_⟩
    simp [Get, envGet, envLookup_envSet_self, kindOf_valueOfLit, ← heq]

/-- Witness for C8: with `x` bound to the int 1, re-declaring it as a
string fails with a TypeError, while assigning the int 5 succeeds and Get
then returns 5. -/
theorem reassignment_type_fixed_witness :
    evalAssign [("x", Value.vInt 1)] none "x" (.lit (.lString "a")) =
      .error (.typeError ("conflicting type in reassignment of variable " ++ "x") 0)
    ∧ evalAssign [("x", Value.vInt 1)] none "x" (.lit (.lInt 5)) =
        .ok [("x", Value.vInt 5)]
    ∧ Get [("x", Value.vInt 5)] "x" ⟨.pInt, false⟩ (Value.vInt 0) =
        .ok (true, Value.vInt 5) :=
  ⟨(reassignment_type_fixed [("x", Value.vInt 1)] "x" (Value.vInt 1)
      (.lString "a") (Value.vInt 0) rfl).1 (by decide),
   ((reassignment_type_fixed [("x", Value.vInt 1)] "x" (Value.vInt 1)
      (.lInt 5) (Value.vInt 0) rfl).2 rfl).1,
   ((reassignment_type_fixed [("x", Value.vInt 1)] "x" (Value.vInt 1)
      (.lInt 5) (Value.vInt 0) rfl).2 rfl).2⟩

/-- When the first-bad-index scan reports position i, the element at i has
the wrong kind and every element before i has the expected kind. -/
theorem firstBadIdx_spec (k : Prim) :
    ∀ (ls : List Literal) (i : Nat), firstBadIdx k ls = some i →
      (∃ l, ls[i]? = some l ∧ kindOfLit l ≠ k)
      ∧ ∀ (j : Nat) (lj : Literal), j < i → ls[j]? = some lj → kindOfLit lj = k := by
  intro ls
  induction ls with
  | nil => intro i h; cases h
  | cons l rest ih =>
    intro i h
    by_cases h0 : kindOfLit l = k
    · simp only [firstBadIdx, if_pos h0] at h
      rw [Option.map_eq_some'] at h
      obtain ⟨i0, hrest, hi⟩ := h
      subst hi
      obtain ⟨hbad, hgood⟩ := ih i0 hrest
      refine ⟨by simpa using hbad, ?_⟩
      intro j lj hj hget
      cases j with
      | zero =>
        simp only [List.getElem?_cons_zero, Option.some.injEq] at hget
        subst hget; exact h0
      | succ j0 =>
        rw [List.getElem?_cons_succ] at hget
        exact hgood j0 lj (Nat.lt_of_succ_lt_succ hj) hget
    · simp only [firstBadIdx, if_neg h0, Option.some.injEq] at h
      subst h
      exact ⟨⟨l, by simp, h0⟩, fun j lj hj _ => absurd hj (Nat.not_lt_zero j)⟩

/-- Claim C7: a homogeneous sequence literal that evaluation accepts is
retrieved as the ordered sequence of its elements in the original order; a
heterogeneous list fails while the value expression is parsed — before any
binding is committed — with a TypeError carrying the position of the first
element whose kind differs from the declared element kind. -/
theorem seq_literal_assignment (env : Env) (x : String) (p : Prim)
    (ls : List Literal) (slot : Value) :
    (∀ env2, evalAssign env (some ⟨p, true⟩) x (.litList ls) = .ok env2 →
       Get env2 x ⟨p, true⟩ slot = .ok (true, .vSeq p (ls.map valueOfLit)))
    ∧ (∀ i, firstBadIdx p ls = some i →
        evalExpr env (some ⟨p, true⟩) (.litList ls) =
          .error (.typeError "heterogeneous sequence element" i)
        ∧ evalAssign env (some ⟨p, true⟩) x (.litList ls) =
          .error (.typeError "heterogeneous sequence element" i)
        ∧ (∃ l, ls[i]? = some l ∧ kindOfLit l ≠ p)
        ∧ (∀ (j : Nat) (lj : Literal), j < i → ls[j]? = some lj → kindOfLit lj = p)) := by
  constructor
  · intro env2 h
    cases hb : firstBadIdx p ls with
    | none =>
      have h2 : envDefine env x (.vSeq p (ls.map valueOfLit)) = .ok env2 := by
        simpa [evalAssign, evalExpr, hb] using h
      have h3 := envDefine_ok _ _ _ _ h2
      subst h3
      simp [Get, envGet, envLookup_envSet_self, kindOf]
    | some i =>
      exfalso
      simp [evalAssign, evalExpr, hb] at h
  · intro i hb
    have hspec := firstBadIdx_spec p ls i hb
    exact ⟨by simp [evalExpr, hb], by simp [evalAssign, evalExpr, hb],
           hspec.1, hspec.2⟩

/-- Witness for C7: `bool[] xs = {true, false};` retrieves as the ordered
sequence [true, false], while `bool[] ys = {true, "x"};` fails at parse
time with a TypeError at element position 1. -/
theorem seq_literal_assignment_witness :
    Get [("xs", Value.vSeq .pBool [Value.vBool true, Value.vBool false])] "xs"
        ⟨.pBool, true⟩ (Value.vBool false) =
      .ok (true, Value.vSeq .pBool [Value.vBool true, Value.vBool false])
    ∧ evalAssign [] (some ⟨.pBool, true⟩) "ys"
        (.litList [.lBool true, .lString "x"]) =
      .error (.typeError "heterogeneous sequence element" 1) :=
  ⟨(seq_literal_assignment [] "xs" .pBool [.lBool true, .lBool false]
      (Value.vBool false)).1
     [("xs", Value.vSeq .pBool [Value.vBool true, Value.vBool false])] rfl,
   ((seq_literal_assignment [] "ys" .pBool [.lBool true, .lString "x"]
      (Value.vBool false)).2 1 rfl).2.1⟩

/-- Claim C3: import path resolution order.  An absolute path is attempted
exactly as written and an open failure is final, with no fallback,
whatever the relative candidates would yield; a relative path is attempted
first as its directory-relative candidate (importer's directory, or the
working directory when the stack is empty), the as-written attempt is made
only when that fails, and when both attempts fail the error names both
attempted paths. -/
theorem import_resolution_order (w : World) (stack : List String) (path : String) :
    (w.isAbs path = true →
       (canRead w path = true → resolveImport w stack path = .ok path)
       ∧ (canRead w path = false →
            resolveImport w stack path = .error (.importNotFound path path)))
    ∧ (w.isAbs path = false →
       (canRead w (firstCandidate w stack path) = true →
          resolveImport w stack path = .ok (firstCandidate w stack path))
       ∧ (canRead w (firstCandidate w stack path) = false →
          canRead w path = true → resolveImport w stack path = .ok path)
       ∧ (canRead w (firstCandidate w stack path) = false →
          canRead w path = false →
          resolveImport w stack path =
            .error (.importNotFound (firstCandidate w stack path) path))) := by
  constructor
  · intro habs
    constructor
    · intro hr; simp [resolveImport, habs, hr]
    · intro hr; simp [resolveImport, habs, hr]
  · intro hrel
    refine ⟨fun h1 => ?_, fun h1 h2 => ?_, fun h1 h2 => ?_⟩
    · simp [resolveImport, hrel, h1]
    · simp [resolveImport, hrel, h1, h2]
    · simp [resolveImport, hrel, h1, h2]

/-- A sample world for exercising import path resolution: two absolute
paths of which only one opens, and relative paths covering the three
relative outcomes; the importing file on the stack lives in directory D
and the working directory is C. -/
def resolveWorld : World where
  isAbs := fun s => s = "/a" || s = "/b"
  dirOf := fun _ => "D"
  joinPath := fun d p => d ++ "/" ++ p
  cwd := "C"
  files := fun f =>
    if f = "/a" then some [] else
    if f = "D/r1" then some [] else
    if f = "r2" then some [] else none

/-- Witness for C3 in the sample world: the readable absolute path opens
as-is, the unreadable one fails finally; a relative path readable at its
directory-relative candidate resolves there, one readable only as written
falls back, and one readable nowhere fails naming both attempts. -/
theorem import_resolution_order_witness :
    resolveImport resolveWorld ["T"] "/a" = .ok "/a"
    ∧ resolveImport resolveWorld ["T"] "/b" = .error (.importNotFound "/b" "/b")
    ∧ resolveImport resolveWorld ["T"] "r1" = .ok "D/r1"
    ∧ resolveImport resolveWorld ["T"] "r2" = .ok "r2"
    ∧ resolveImport resolveWorld ["T"] "r3" = .error (.importNotFound "D/r3" "r3") :=
  ⟨((import_resolution_order resolveWorld ["T"] "/a").1 rfl).1 rfl,
   ((import_resolution_order resolveWorld ["T"] "/b").1 rfl).2 rfl,
   ((import_resolution_order resolveWorld ["T"] "r1").2 rfl).1 rfl,
   ((import_resolution_order resolveWorld ["T"] "r2").2 rfl).2.1 rfl rfl,
   ((import_resolution_order resolveWorld ["T"] "r3").2 rfl).2.2 rfl rfl⟩

/-- Claim C4: importing a file already on the import stack fails with an
ImportCycleError whose chain is the importing files in order followed by
the re-entered file; and an import of a fresh file pushes its canonical
name for the duration of the imported statements and evaluates the
following (sibling) statements with the original stack, an error from the
imported file propagating through the bind. -/
theorem import_cycle_detection (w : World) (fuel : Nat) (stack : List String)
    (env : Env) :
    (∀ file, HasCycle file stack = true →
       EvalFile w fuel stack env file = .error (.importCycle (stack ++ [file])))
    ∧ (∀ path rest file stmts,
         resolveImport w stack path = .ok file →
         HasCycle file stack = false →
         w.files file = some stmts →
         EvalUnits w (fuel + 1) stack env (.importStmt path :: rest) =
           (EvalUnits w fuel (stack ++ [file]) env stmts).bind
             fun env2 => EvalUnits w fuel stack env2 rest) := by
  constructor
  · intro file h
    simp [EvalFile, h]
  · intro path rest file stmts hres hnc hf
    simp only [EvalUnits, hres, hnc, Bool.false_eq_true, if_false, hf]
    cases EvalUnits w fuel (stack ++ [file]) env stmts <;> rfl

/-- A world with two files that import one another: B imports A and A
imports B. -/
def cycleWorld : World where
  isAbs := fun _ => true
  dirOf := fun _ => ""
  joinPath := fun _ p => p
  cwd := ""
  files := fun f =>
    if f = "B" then some [.importStmt "A"] else
    if f = "A" then some [.importStmt "B"] else none

/-- Witness for C4 in the two-file cyclic world: re-entering B with B and
A mid-evaluation yields the chain B, A, B; a fresh import of B unfolds to
evaluation of B's statements on the pushed stack followed by the siblings
on the original stack; and the full evaluation of B from an empty stack
computes to the ImportCycleError with chain B, A, B. -/
theorem import_cycle_detection_witness :
    EvalFile cycleWorld 5 ["B", "A"] [] "B" = .error (.importCycle ["B", "A", "B"])
    ∧ EvalUnits cycleWorld 6 [] [] [.importStmt "B"] =
        ((EvalUnits cycleWorld 5 ["B"] [] [.importStmt "A"]).bind
          fun env2 => EvalUnits cycleWorld 5 [] env2 [])
    ∧ EvalFile cycleWorld 3 [] [] "B" = .error (.importCycle ["B", "A", "B"]) :=
  ⟨(import_cycle_detection cycleWorld 5 ["B", "A"] []).1 "B" rfl,
   (import_cycle_detection cycleWorld 5 [] []).2 "B" [] "B" [.importStmt "A"]
     rfl rfl rfl,
   rfl⟩

/-- Claim C5: imports are evaluated in the single shared environment.  The
imported file's statements are evaluated in exactly the environment the
importer had built before the import line (so earlier bindings are visible
inside the imported file), and the environment the imported file produces
is the one the importer's subsequent statements are evaluated in (so its
bindings remain visible after the import completes); concretely, an
imported file consisting of an assignment referencing the importer's
variable commits that binding into the shared environment. -/
theorem import_shared_environment (w : World) (fuel : Nat) (stack : List String)
    (env : Env) (path : String) (rest : List Stmt) (file : String)
    (hres : resolveImport w stack path = .ok file)
    (hnc : HasCycle file stack = false) :
    (∀ stmts, w.files file = some stmts →
       EvalUnits w (fuel + 1) stack env (.importStmt path :: rest) =
         (EvalUnits w fuel (stack ++ [file]) env stmts).bind
           fun env2 => EvalUnits w fuel stack env2 rest)
    ∧ (∀ x y v env2, w.files file = some [.assign none y (.ref x)] →
         envLookup env x = some v →
         envDefine env y v = .ok env2 →
         EvalUnits w (fuel + 2) stack env (.importStmt path :: rest) =
           EvalUnits w (fuel + 1) stack env2 rest) := by
  constructor
  · intro stmts hf
    simp only [EvalUnits, hres, hnc, Bool.false_eq_true, if_false, hf]
    cases EvalUnits w fuel (stack ++ [file]) env stmts <;> rfl
  · intro x y v env2 hf hx hdef
    show EvalUnits w (fuel + 1 + 1) stack env (.importStmt path :: rest) = _
    simp only [EvalUnits, hres, hnc, Bool.false_eq_true, if_false, hf,
               evalAssign, evalExpr, hx, hdef]

/-- A world with one library file whose single statement assigns to y the
value of the importer's variable x. -/
def libWorld : World where
  isAbs := fun _ => true
  dirOf := fun _ => ""
  joinPath := fun _ p => p
  cwd := ""
  files := fun f =>
    if f = "lib" then some [.assign none "y" (.ref "x")] else none

/-- Witness for C5: with x bound to 1 before the import, importing the
library file both resolves x inside the imported statement and leaves the
binding of y visible afterwards, the shared environment ending as x, y
bound to 1. -/
theorem import_shared_environment_witness :
    EvalUnits libWorld 2 ["main"] [("x", Value.vInt 1)] [.importStmt "lib"] =
      EvalUnits libWorld 1 ["main"] [("x", Value.vInt 1), ("y", Value.vInt 1)] []
    ∧ EvalUnits libWorld 1 ["main"] [("x", Value.vInt 1)] [.importStmt "lib"] =
        (EvalUnits libWorld 0 ["main", "lib"] [("x", Value.vInt 1)]
            [.assign none "y" (.ref "x")]).bind
          fun env2 => EvalUnits libWorld 0 ["main"] env2 [] :=
  ⟨(import_shared_environment libWorld 0 ["main"] [("x", Value.vInt 1)] "lib" []
      "lib" rfl rfl).2 "x" "y" (Value.vInt 1)
      [("x", Value.vInt 1), ("y", Value.vInt 1)] rfl rfl rfl,
   (import_shared_environment libWorld 0 ["main"] [("x", Value.vInt 1)] "lib" []
      "lib" rfl rfl).1 [.assign none "y" (.ref "x")] rfl⟩
